import Mathlib

/-!
Shallow embedding of the core of the `elgris/squirrel` repository: the
execution helpers, the runner-adaptation layer (`otherRunner`, `wrapRunner`)
from `sqrl.go`, and the prepared-statement cache (`stmtCacher`) from the
statement-cache source file.  Go interfaces carrying behaviour are modelled
as records of Lean functions; handles (`*sql.Stmt`, `*sql.Rows`,
`sql.Result`) are modelled as opaque natural-number identities; Go `error`
values are an inductive type whose constructors mirror the package-level
sentinel errors plus opaque driver/render errors; calls made to an
underlying handle are made observable by returning an explicit call log.
-/

namespace Sqrl

/-- A Go `context.Context` value: either `context.Background()` or some other
context distinguished by an identity. -/
inductive Ctx where
  | background : Ctx
  | other (id : Nat) : Ctx
  deriving DecidableEq, Repr

/-- A Go `interface\x7b\x7d` argument value.  A value is either an opaque
scalar or a slice of values: the slice case is needed because passing a Go
slice `args` (rather than `args...`) to a variadic parameter wraps the whole
slice into a single element. -/
inductive Value where
  | scalar (n : Nat) : Value
  | slice (vs : List Value) : Value

/-- Go `error` values of the package: the five package-level sentinel errors
declared in `sqrl.go` (each a distinct `fmt.Errorf` identity), plus opaque
render, prepare and driver errors. -/
inductive Err where
  | runnerNotSet : Err
  | runnerNotQueryRunner : Err
  | runnerNotQueryRunnerContext : Err
  | runnerNotQueryer : Err
  | runnerNotQueryerContext : Err
  | renderErr (id : Nat) : Err
  | prepareErr (id : Nat) : Err
  | driverErr (id : Nat) : Err
  deriving DecidableEq, Repr

/-- A value of the Go interface type `RowScanner`.  `nilScanner` is the nil
interface value; `row` is squirrel's own `&Row\x7b...\x7d` wrapper holding an
inner scanner and a stored error; `driverRow` is a live row handed back by an
underlying driver or prepared statement, tagged with the call that produced
it. -/
inductive RowScannerV where
  | nilScanner : RowScannerV
  | row (inner : RowScannerV) (err : Option Err) : RowScannerV
  | driverRow (ctx : Option Ctx) (query : String) (args : List Value) : RowScannerV

/-- Modelled from the spec: the single-row result object (Go type `Row`,
whose declaration is not among the provided sources) carries either a live
row cursor or a stored error, and its scan step must surface the stored
error rather than silently returning no data; otherwise it delegates to the
wrapped scanner.  Scanning the nil interface value is a nil-dereference
fault, modelled as `Except.error ()`. -/
def RowScannerV.scan : RowScannerV → Except Unit (Option Err)
  | .nilScanner => .error ()
  | .row inner err =>
    match err with
    | some e => .ok (some e)
    | none => inner.scan
  | .driverRow _ _ _ => .ok none

/-- A `Sqlizer`: `ToSql` returns a SQL text, an argument list and an
error. -/
structure Sqlizer where
  ToSql : String × List Value × Option Err

/-- One call observed on an underlying handle: the context passed (none for
a non-context method), the query text and the argument list. -/
structure HandleCall where
  ctx : Option Ctx
  query : String
  args : List Value

/-- An `Execer` handle: `Exec` as a pure function from query and args to a
result identity or an error. -/
structure Execer where
  Exec : String → List Value → Except Err Nat

/-- An `ExecerContext` handle. -/
structure ExecerContext where
  ExecContext : Ctx → String → List Value → Except Err Nat

/-- A `Queryer` handle: `Query` returns a rows handle identity or an
error. -/
structure Queryer where
  Query : String → List Value → Except Err Nat

/-- A `QueryerContext` handle. -/
structure QueryerContext where
  QueryContext : Ctx → String → List Value → Except Err Nat

/-- A `QueryRower` handle: `QueryRow` returns a `RowScanner`. -/
structure QueryRower where
  QueryRow : String → List Value → RowScannerV

/-- A `QueryRowerContext` handle. -/
structure QueryRowerContext where
  QueryRowContext : Ctx → String → List Value → RowScannerV

/-- `ExecWith` from `sqrl.go`: render the Sqlizer; on render error return it
with no handle call; otherwise call `db.Exec` with the rendered text and
args.  The second component is the log of calls made to the handle. -/
def ExecWith (db : Execer) (s : Sqlizer) : Except Err Nat × List HandleCall :=
  let (query, args, err) := s.ToSql
  match err with
  | some e => (.error e, [])
  | none => (db.Exec query args, [⟨none, query, args⟩])

/-- `ExecWithContext` from `sqrl.go`. -/
def ExecWithContext (ctx : Ctx) (db : ExecerContext) (s : Sqlizer) :
    Except Err Nat × List HandleCall :=
  let (query, args, err) := s.ToSql
  match err with
  | some e => (.error e, [])
  | none => (db.ExecContext ctx query args, [⟨some ctx, query, args⟩])

/-- `QueryWith` from `sqrl.go`. -/
def QueryWith (db : Queryer) (s : Sqlizer) : Except Err Nat × List HandleCall :=
  let (query, args, err) := s.ToSql
  match err with
  | some e => (.error e, [])
  | none => (db.Query query args, [⟨none, query, args⟩])

/-- `QueryWithContext` from `sqrl.go`. -/
def QueryWithContext (ctx : Ctx) (db : QueryerContext) (s : Sqlizer) :
    Except Err Nat × List HandleCall :=
  let (query, args, err) := s.ToSql
  match err with
  | some e => (.error e, [])
  | none => (db.QueryContext ctx query args, [⟨some ctx, query, args⟩])

/-- `QueryRowWith` from `sqrl.go`: renders the Sqlizer and unconditionally
calls `db.QueryRow` with the rendered text and args, wrapping the resulting
scanner together with the render error (possibly nil) in a `Row`. -/
def QueryRowWith (db : QueryRower) (s : Sqlizer) : RowScannerV × List HandleCall :=
  let (query, args, err) := s.ToSql
  (.row (db.QueryRow query args) err, [⟨none, query, args⟩])

/-- `QueryRowWithContext` from `sqrl.go`. -/
def QueryRowWithContext (ctx : Ctx) (db : QueryRowerContext) (s : Sqlizer) :
    RowScannerV × List HandleCall :=
  let (query, args, err) := s.ToSql
  (.row (db.QueryRowContext ctx query args) err, [⟨some ctx, query, args⟩])

/-- A `BaseRunner` handle: the guaranteed `Execer` and `ExecerContext`
methods, plus, for each of the four optional capabilities, either `some`
delegate function (the dynamic type assertion succeeds) or `none` (it
fails). -/
structure BaseHandle where
  Exec : String → List Value → Except Err Nat
  ExecContext : Ctx → String → List Value → Except Err Nat
  queryer : Option (String → List Value → Except Err Nat)
  queryerContext : Option (Ctx → String → List Value → Except Err Nat)
  queryRower : Option (String → List Value → RowScannerV)
  queryRowerContext : Option (Ctx → String → List Value → RowScannerV)

/-- `otherRunner.Query` from `sqrl.go`: assert the `Queryer` capability; on
failure return `ErrRunnerNotQueryer`, else delegate with `args...` spread
(the argument list is forwarded element for element). -/
def otherRunner.Query (r : BaseHandle) (query : String) (args : List Value) :
    Except Err Nat :=
  match r.queryer with
  | none => .error .runnerNotQueryer
  | some queryer => queryer query args

/-- `otherRunner.QueryContext` from `sqrl.go`: assert `QueryerContext`; on
failure return `ErrRunnerNotQueryerContext`, else delegate with `args...`
spread. -/
def otherRunner.QueryContext (r : BaseHandle) (ctx : Ctx) (query : String)
    (args : List Value) : Except Err Nat :=
  match r.queryerContext with
  | none => .error .runnerNotQueryerContext
  | some queryer => queryer ctx query args

/-- `otherRunner.QueryRow` from `sqrl.go`: assert `QueryRower`; on failure
return a `Row` holding `ErrRunnerNotQueryRunner` and a nil scanner.  On
success the Go source delegates with `queryRower.QueryRow(query, args)` —
`args`, a slice, passed to a variadic parameter WITHOUT the `...` spread, so
the delegate receives a single-element argument list whose one element is
the whole original slice. -/
def otherRunner.QueryRow (r : BaseHandle) (query : String) (args : List Value) :
    RowScannerV :=
  match r.queryRower with
  | none => .row .nilScanner (some .runnerNotQueryRunner)
  | some queryRower => queryRower query [Value.slice args]

/-- `otherRunner.QueryRowContext` from `sqrl.go`: assert `QueryRowerContext`;
on failure return a `Row` holding `ErrRunnerNotQueryRunnerContext`.  On
success the Go source delegates with `queryRower.QueryRowContext(ctx, query,
args)` — again without the `...` spread. -/
def otherRunner.QueryRowContext (r : BaseHandle) (ctx : Ctx) (query : String)
    (args : List Value) : RowScannerV :=
  match r.queryRowerContext with
  | none => .row .nilScanner (some .runnerNotQueryRunnerContext)
  | some queryRower => queryRower ctx query [Value.slice args]

/-- `otherRunner.Exec`: promoted from the embedded `BaseRunner`, so it
delegates directly. -/
def otherRunner.Exec (r : BaseHandle) (query : String) (args : List Value) :
    Except Err Nat :=
  r.Exec query args

/-- `otherRunner.ExecContext`: promoted from the embedded `BaseRunner`. -/
def otherRunner.ExecContext (r : BaseHandle) (ctx : Ctx) (query : String)
    (args : List Value) : Except Err Nat :=
  r.ExecContext ctx query args

/-- Whether a custom handle's dynamic type satisfies the full `Runner`
interface: all four optional capabilities present. -/
def BaseHandle.isRunner (r : BaseHandle) : Bool :=
  r.queryer.isSome && r.queryerContext.isSome &&
    r.queryRower.isSome && r.queryRowerContext.isSome

/-- A dynamic value passed to `wrapRunner`: a `*sql.DB` pool, a `*sql.Tx`
transaction, or an arbitrary custom handle. `*sql.DB` and `*sql.Tx` never
satisfy the package's `Runner` interface themselves (their `Query` and
`QueryRow` methods return `*sql.Rows` and `*sql.Row`, not the package's
`RowsScanner` and `RowScanner`), which is why the dedicated wrappers
exist. -/
inductive BaseRunnerVal where
  | sqlDB (id : Nat) : BaseRunnerVal
  | sqlTx (id : Nat) : BaseRunnerVal
  | custom (h : BaseHandle) : BaseRunnerVal

/-- Whether the dynamic value satisfies the `Runner` interface (the `case
Runner:` test of the type switch). -/
def BaseRunnerVal.isRunner : BaseRunnerVal → Bool
  | .sqlDB _ => false
  | .sqlTx _ => false
  | .custom h => h.isRunner

/-- The result of `wrapRunner`: a `dbRunner` wrapper, a `txRunner` wrapper,
the handle used as-is (the `case Runner:` arm), or the guarded
`otherRunner` adapter. -/
inductive RunnerVal where
  | dbRunner (id : Nat) : RunnerVal
  | txRunner (id : Nat) : RunnerVal
  | asIs (h : BaseHandle) : RunnerVal
  | guarded (h : BaseHandle) : RunnerVal

/-- `wrapRunner` from `sqrl.go`: a type switch whose cases appear in source
order `*sql.DB`, `*sql.Tx`, `Runner`, `default`. -/
def wrapRunner : BaseRunnerVal → RunnerVal
  | .sqlDB r => .dbRunner r
  | .sqlTx r => .txRunner r
  | .custom r => if r.isRunner then .asIs r else .guarded r

/-- Dispatch order as the spec describes it, for comparison with the
source's `wrapRunner`: (1) a handle already satisfying the full uniform
contract is used as-is with no wrapping; (2) the well-known built-in
connection-pool and transaction types are wrapped with direct delegation;
(3) otherwise the handle is wrapped in the guarded adapter.  Only a custom
handle can hit arm (1): in the model, as in Go, the built-in types do not
themselves satisfy the package's `Runner` interface. -/
def wrapRunnerSpec (b : BaseRunnerVal) : RunnerVal :=
  if b.isRunner then
    match b with
    | .custom h => .asIs h
    | .sqlDB id => .dbRunner id
    | .sqlTx id => .txRunner id
  else
    match b with
    | .sqlDB id => .dbRunner id
    | .sqlTx id => .txRunner id
    | .custom h => .guarded h

/-- One cached entry: the prepared-statement handle identity and the
last-use timestamp. -/
structure SavedStmt where
  stmt : Nat
  lastUse : Nat
  deriving DecidableEq, Repr

/-- The underlying `Preparer` wrapped by the cache, as a pure function
(the cache only ever calls its `PrepareContext` method). -/
structure Preparer where
  PrepareContext : Ctx → String → Except Err Nat

/-- The statement cache's map, `cache map[string]*savedStmt`, as an
association list whose keys are unique by construction of the
operations. -/
abbrev StmtCache := List (String × SavedStmt)

/-- Map lookup `sc.cache[query]`. -/
def lookupStmt (query : String) : StmtCache → Option SavedStmt
  | [] => none
  | (k, v) :: rest => if k = query then some v else lookupStmt query rest

/-- In-place update `s.lastUse = time.Now()` of the entry found for
`query`. -/
def touchStmt (query : String) (now : Nat) : StmtCache → StmtCache
  | [] => []
  | (k, v) :: rest =>
    if k = query then (k, { v with lastUse := now }) :: rest
    else (k, v) :: touchStmt query now rest

/-- Output of a cache operation: the returned value, the cache map
afterwards, and the log of calls made to the underlying `Preparer`. -/
structure PrepOut where
  res : Except Err Nat
  cache : StmtCache
  prepCalls : List (Ctx × String)

/-- `stmtCacher.PrepareContext`: under the cache mutex, on a hit update the
entry's `lastUse` and return its statement with no underlying call; on a
miss call the underlying `PrepareContext`, propagate an error without
touching the map, and on success insert the new entry with `lastUse =
now`. -/
def stmtCacher.PrepareContext (prep : Preparer) (ctx : Ctx) (now : Nat)
    (query : String) (cache : StmtCache) : PrepOut :=
  match lookupStmt query cache with
  | some s => ⟨.ok s.stmt, touchStmt query now cache, []⟩
  | none =>
    match prep.PrepareContext ctx query with
    | .error e => ⟨.error e, cache, [(ctx, query)]⟩
    | .ok stmt => ⟨.ok stmt, (query, ⟨stmt, now⟩) :: cache, [(ctx, query)]⟩

/-- Behaviour of the `*sql.Stmt` handles returned by the preparer, used by
the cache's derived operations. -/
structure StmtEnv where
  ExecContext : Ctx → Nat → List Value → Except Err Nat
  QueryContext : Ctx → Nat → List Value → Except Err Nat
  QueryRowContext : Ctx → Nat → List Value → RowScannerV

/-- Output of a single-row cache operation. -/
structure RowOut where
  row : RowScannerV
  cache : StmtCache
  prepCalls : List (Ctx × String)

/-- `stmtCacher.ExecContext`: prepare (through the cache) then
`stmt.ExecContext(ctx, args...)`; a prepare error is returned as-is. -/
def stmtCacher.ExecContext (prep : Preparer) (env : StmtEnv) (ctx : Ctx)
    (now : Nat) (query : String) (args : List Value) (cache : StmtCache) :
    PrepOut :=
  match stmtCacher.PrepareContext prep ctx now query cache with
  | ⟨.error e, c, calls⟩ => ⟨.error e, c, calls⟩
  | ⟨.ok stmt, c, calls⟩ => ⟨env.ExecContext ctx stmt args, c, calls⟩

/-- `stmtCacher.QueryContext`: prepare then `stmt.QueryContext`. -/
def stmtCacher.QueryContext (prep : Preparer) (env : StmtEnv) (ctx : Ctx)
    (now : Nat) (query : String) (args : List Value) (cache : StmtCache) :
    PrepOut :=
  match stmtCacher.PrepareContext prep ctx now query cache with
  | ⟨.error e, c, calls⟩ => ⟨.error e, c, calls⟩
  | ⟨.ok stmt, c, calls⟩ => ⟨env.QueryContext ctx stmt args, c, calls⟩

/-- `stmtCacher.QueryRowContext`: prepare then `stmt.QueryRowContext`; a
prepare error is wrapped into a returned `Row` value, never a nil
result. -/
def stmtCacher.QueryRowContext (prep : Preparer) (env : StmtEnv) (ctx : Ctx)
    (now : Nat) (query : String) (args : List Value) (cache : StmtCache) :
    RowOut :=
  match stmtCacher.PrepareContext prep ctx now query cache with
  | ⟨.error e, c, calls⟩ => ⟨.row .nilScanner (some e), c, calls⟩
  | ⟨.ok stmt, c, calls⟩ => ⟨env.QueryRowContext ctx stmt args, c, calls⟩

/-- `stmtCacher.Prepare`: delegates to `PrepareContext` with
`context.Background()`. -/
def stmtCacher.Prepare (prep : Preparer) (now : Nat) (query : String)
    (cache : StmtCache) : PrepOut :=
  stmtCacher.PrepareContext prep .background now query cache

/-- `stmtCacher.Exec`: delegates to `ExecContext` with
`context.Background()`. -/
def stmtCacher.Exec (prep : Preparer) (env : StmtEnv) (now : Nat)
    (query : String) (args : List Value) (cache : StmtCache) : PrepOut :=
  stmtCacher.ExecContext prep env .background now query args cache

/-- `stmtCacher.Query`: delegates to `QueryContext` with
`context.Background()`. -/
def stmtCacher.Query (prep : Preparer) (env : StmtEnv) (now : Nat)
    (query : String) (args : List Value) (cache : StmtCache) : PrepOut :=
  stmtCacher.QueryContext prep env .background now query args cache

/-- `stmtCacher.QueryRow`: delegates to `QueryRowContext` with
`context.Background()`. -/
def stmtCacher.QueryRow (prep : Preparer) (env : StmtEnv) (now : Nat)
    (query : String) (args : List Value) (cache : StmtCache) : RowOut :=
  stmtCacher.QueryRowContext prep env .background now query args cache

/-- One janitor tick of `stmtCacher.startCleanup`: scan all entries; each
entry idle longer than `maxAge` (Go `time.Since(v.lastUse) > maxAge`, i.e.
`now - v.lastUse > maxAge`) has its statement closed and is deleted from
the map.  Returns the surviving map and the list of closed statement
handles. -/
def stmtCacher.cleanupTick (now maxAge : Nat) :
    StmtCache → StmtCache × List Nat
  | [] => ([], [])
  | (k, v) :: rest =>
    if now - v.lastUse > maxAge then
      ((stmtCacher.cleanupTick now maxAge rest).1,
        v.stmt :: (stmtCacher.cleanupTick now maxAge rest).2)
    else
      ((k, v) :: (stmtCacher.cleanupTick now maxAge rest).1,
        (stmtCacher.cleanupTick now maxAge rest).2)

/-- Looking a query up after touching its entry yields the entry with the
refreshed timestamp. -/
theorem lookupStmt_touchStmt (query : String) (now : Nat) (cache : StmtCache) :
    lookupStmt query (touchStmt query now cache)
      = (lookupStmt query cache).map fun v => { v with lastUse := now } := by
  induction cache with
  | nil => rfl
  | cons kv rest ih =>
    obtain ⟨k, v⟩ := kv
    by_cases h : k = query
    · simp [lookupStmt, touchStmt, h]
    · simp [lookupStmt, touchStmt, h, ih]

/-- C1 (counterexample): the claim says every execution helper makes no
call to the underlying handle when `ToSql` fails, but `QueryRowWith` calls
`db.QueryRow` unconditionally: with a failing Sqlizer its handle-call log
is non-empty. -/
theorem queryRowWith_render_error_still_calls_handle :
    (QueryRowWith ⟨fun q as => .driverRow none q as⟩
        ⟨("", [], some (.renderErr 0))⟩).2 ≠ [] := by
  simp [QueryRowWith]

/-- C1 (amended): on a render error, `ExecWith`, `ExecWithContext`,
`QueryWith` and `QueryWithContext` make no call to the handle and return
exactly the render error; `QueryRowWith` and `QueryRowWithContext` do call
the handle with the rendered text and args, but store exactly the render
error in the returned row, whose scan step surfaces it unchanged. -/
theorem render_error_short_circuit (dbE : Execer) (dbEC : ExecerContext)
    (dbQ : Queryer) (dbQC : QueryerContext) (dbR : QueryRower)
    (dbRC : QueryRowerContext) (ctx : Ctx) (query : String) (args : List Value)
    (e : Err) :
    ExecWith dbE ⟨(query, args, some e)⟩ = (.error e, []) ∧
    ExecWithContext ctx dbEC ⟨(query, args, some e)⟩ = (.error e, []) ∧
    QueryWith dbQ ⟨(query, args, some e)⟩ = (.error e, []) ∧
    QueryWithContext ctx dbQC ⟨(query, args, some e)⟩ = (.error e, []) ∧
    QueryRowWith dbR ⟨(query, args, some e)⟩
      = (.row (dbR.QueryRow query args) (some e), [⟨none, query, args⟩]) ∧
    (QueryRowWith dbR ⟨(query, args, some e)⟩).1.scan = .ok (some e) ∧
    QueryRowWithContext ctx dbRC ⟨(query, args, some e)⟩
      = (.row (dbRC.QueryRowContext ctx query args) (some e),
          [⟨some ctx, query, args⟩]) ∧
    (QueryRowWithContext ctx dbRC ⟨(query, args, some e)⟩).1.scan
      = .ok (some e) :=
  ⟨rfl, rfl, rfl, rfl, rfl, rfl, rfl, rfl⟩

/-- C10: each non-context operation of the statement cache equals its
context-bearing counterpart invoked with the background context, for every
preparer, statement environment, time, query, argument list and cache
state. -/
theorem nonContext_equiv_backgroundContext (prep : Preparer) (env : StmtEnv)
    (now : Nat) (query : String) (args : List Value) (cache : StmtCache) :
    stmtCacher.Prepare prep now query cache
      = stmtCacher.PrepareContext prep .background now query cache ∧
    stmtCacher.Exec prep env now query args cache
      = stmtCacher.ExecContext prep env .background now query args cache ∧
    stmtCacher.Query prep env now query args cache
      = stmtCacher.QueryContext prep env .background now query args cache ∧
    stmtCacher.QueryRow prep env now query args cache
      = stmtCacher.QueryRowContext prep env .background now query args cache :=
  ⟨rfl, rfl, rfl, rfl⟩

/-- C6: adapting a handle that implements only the base execute contract
yields a runner whose `Query` fails with `ErrRunnerNotQueryer`,
`QueryContext` with `ErrRunnerNotQueryerContext`, `QueryRow` with a row
storing `ErrRunnerNotQueryRunner`, `QueryRowContext` with a row storing
`ErrRunnerNotQueryRunnerContext` — four pairwise-distinct error identities —
while `Exec` and `ExecContext` delegate to the wrapped handle. -/
theorem execOnly_handle_capability_errors
    (ex : String → List Value → Except Err Nat)
    (exCtx : Ctx → String → List Value → Except Err Nat)
    (ctx : Ctx) (query : String) (args : List Value) :
    otherRunner.Query ⟨ex, exCtx, none, none, none, none⟩ query args
      = .error .runnerNotQueryer ∧
    otherRunner.QueryContext ⟨ex, exCtx, none, none, none, none⟩ ctx query args
      = .error .runnerNotQueryerContext ∧
    otherRunner.QueryRow ⟨ex, exCtx, none, none, none, none⟩ query args
      = .row .nilScanner (some .runnerNotQueryRunner) ∧
    otherRunner.QueryRowContext ⟨ex, exCtx, none, none, none, none⟩ ctx query args
      = .row .nilScanner (some .runnerNotQueryRunnerContext) ∧
    otherRunner.Exec ⟨ex, exCtx, none, none, none, none⟩ query args
      = ex query args ∧
    otherRunner.ExecContext ⟨ex, exCtx, none, none, none, none⟩ ctx query args
      = exCtx ctx query args ∧
    (Err.runnerNotQueryer ≠ Err.runnerNotQueryerContext ∧
     Err.runnerNotQueryer ≠ Err.runnerNotQueryRunner ∧
     Err.runnerNotQueryer ≠ Err.runnerNotQueryRunnerContext ∧
     Err.runnerNotQueryerContext ≠ Err.runnerNotQueryRunner ∧
     Err.runnerNotQueryerContext ≠ Err.runnerNotQueryRunnerContext ∧
     Err.runnerNotQueryRunner ≠ Err.runnerNotQueryRunnerContext) :=
  ⟨rfl, rfl, rfl, rfl, rfl, rfl, by decide⟩

/-- Cache-hit path of `PrepareContext`: the cached statement is returned,
the entry's timestamp is refreshed, and no underlying call is made. -/
theorem stmtCacher.prepareContext_hit (prep : Preparer) (ctx : Ctx) (now : Nat)
    (query : String) (cache : StmtCache) (s : SavedStmt)
    (h : lookupStmt query cache = some s) :
    stmtCacher.PrepareContext prep ctx now query cache
      = ⟨.ok s.stmt, touchStmt query now cache, []⟩ := by
  unfold stmtCacher.PrepareContext
  rw [h]

/-- Cache-miss path of `PrepareContext` with a successful underlying
prepare: the new entry is inserted and one underlying call is made. -/
theorem stmtCacher.prepareContext_miss_ok (prep : Preparer) (ctx : Ctx)
    (now : Nat) (query : String) (cache : StmtCache) (stmt : Nat)
    (hfresh : lookupStmt query cache = none)
    (hok : prep.PrepareContext ctx query = .ok stmt) :
    stmtCacher.PrepareContext prep ctx now query cache
      = ⟨.ok stmt, (query, ⟨stmt, now⟩) :: cache, [(ctx, query)]⟩ := by
  unfold stmtCacher.PrepareContext
  rw [hfresh, hok]

/-- Cache-miss path of `PrepareContext` with a failing underlying prepare:
the error propagates and the cache is untouched. -/
theorem stmtCacher.prepareContext_miss_err (prep : Preparer) (ctx : Ctx)
    (now : Nat) (query : String) (cache : StmtCache) (e : Err)
    (hfresh : lookupStmt query cache = none)
    (herr : prep.PrepareContext ctx query = .error e) :
    stmtCacher.PrepareContext prep ctx now query cache
      = ⟨.error e, cache, [(ctx, query)]⟩ := by
  unfold stmtCacher.PrepareContext
  rw [hfresh, herr]

/-- C2: after a successful `PrepareContext` for a query, a second
`PrepareContext` for the same query (before any eviction) returns the same
statement handle and makes no call to the underlying `Preparer`. -/
theorem prepare_idempotent_within_window (prep : Preparer) (ctx1 ctx2 : Ctx)
    (now1 now2 : Nat) (query : String) (cache : StmtCache) (stmt : Nat)
    (h : (stmtCacher.PrepareContext prep ctx1 now1 query cache).res = .ok stmt) :
    (stmtCacher.PrepareContext prep ctx2 now2 query
        (stmtCacher.PrepareContext prep ctx1 now1 query cache).cache).res
      = .ok stmt ∧
    (stmtCacher.PrepareContext prep ctx2 now2 query
        (stmtCacher.PrepareContext prep ctx1 now1 query cache).cache).prepCalls
      = [] := by
  cases hlk : lookupStmt query cache with
  | some s =>
    rw [stmtCacher.prepareContext_hit prep ctx1 now1 query cache s hlk] at h ⊢
    simp only [] at h
    have h2 : lookupStmt query (touchStmt query now1 cache)
        = some ⟨s.stmt, now1⟩ := by
      rw [lookupStmt_touchStmt, hlk]; rfl
    rw [stmtCacher.prepareContext_hit prep ctx2 now2 query _ _ h2]
    exact ⟨h, rfl⟩
  | none =>
    cases hp : prep.PrepareContext ctx1 query with
    | error e =>
      rw [stmtCacher.prepareContext_miss_err prep ctx1 now1 query cache e hlk hp] at h
      exact absurd h (by simp)
    | ok st =>
      rw [stmtCacher.prepareContext_miss_ok prep ctx1 now1 query cache st hlk hp] at h ⊢
      simp only [Except.ok.injEq] at h
      have h2 : lookupStmt query ((query, ⟨st, now1⟩) :: cache)
          = some ⟨st, now1⟩ := by simp [lookupStmt]
      rw [stmtCacher.prepareContext_hit prep ctx2 now2 query _ _ h2]
      exact ⟨by simp [h], rfl⟩

/-- C2 (witness): concrete run of the idempotence theorem: prepare a fresh
query against an empty cache, then prepare it again. -/
theorem prepare_idempotent_within_window_witness :
    (stmtCacher.PrepareContext ⟨fun _ _ => .ok 7⟩ .background 2 "SELECT 1"
        (stmtCacher.PrepareContext ⟨fun _ _ => .ok 7⟩ .background 1 "SELECT 1"
          []).cache).res = .ok 7 ∧
    (stmtCacher.PrepareContext ⟨fun _ _ => .ok 7⟩ .background 2 "SELECT 1"
        (stmtCacher.PrepareContext ⟨fun _ _ => .ok 7⟩ .background 1 "SELECT 1"
          []).cache).prepCalls = [] :=
  prepare_idempotent_within_window ⟨fun _ _ => .ok 7⟩ .background .background
    1 2 "SELECT 1" [] 7 rfl

/-- C4: when the underlying prepare fails for a query not in the cache,
`PrepareContext` returns exactly that error, the cache map is exactly as it
was before the call, and the one underlying call is logged. -/
theorem prepare_error_leaves_cache_unchanged (prep : Preparer) (ctx : Ctx)
    (now : Nat) (query : String) (cache : StmtCache) (e : Err)
    (hfresh : lookupStmt query cache = none)
    (herr : prep.PrepareContext ctx query = .error e) :
    (stmtCacher.PrepareContext prep ctx now query cache).res = .error e ∧
    (stmtCacher.PrepareContext prep ctx now query cache).cache = cache ∧
    (stmtCacher.PrepareContext prep ctx now query cache).prepCalls
      = [(ctx, query)] := by
  rw [stmtCacher.prepareContext_miss_err prep ctx now query cache e hfresh herr]
  exact ⟨rfl, rfl, rfl⟩

/-- C4 (witness): concrete run of the prepare-failure theorem on a
one-entry cache. -/
theorem prepare_error_leaves_cache_unchanged_witness :
    (stmtCacher.PrepareContext ⟨fun _ _ => .error (.prepareErr 3)⟩ .background
        5 "Q" [("R", ⟨9, 0⟩)]).res = .error (.prepareErr 3) ∧
    (stmtCacher.PrepareContext ⟨fun _ _ => .error (.prepareErr 3)⟩ .background
        5 "Q" [("R", ⟨9, 0⟩)]).cache = [("R", ⟨9, 0⟩)] ∧
    (stmtCacher.PrepareContext ⟨fun _ _ => .error (.prepareErr 3)⟩ .background
        5 "Q" [("R", ⟨9, 0⟩)]).prepCalls = [(.background, "Q")] :=
  prepare_error_leaves_cache_unchanged ⟨fun _ _ => .error (.prepareErr 3)⟩
    .background 5 "Q" [("R", ⟨9, 0⟩)] (.prepareErr 3) rfl rfl

/-- C9: two `PrepareContext` calls for the same novel query — the model of
two concurrent callers, which the cache mutex serializes into one of the
two sequential orders since the whole body runs under the lock — produce
exactly one underlying prepare call in total, and both callers receive the
same statement handle. -/
theorem concurrent_prepare_one_underlying_call (prep : Preparer)
    (ctx1 ctx2 : Ctx) (now1 now2 : Nat) (query : String) (cache : StmtCache)
    (stmt : Nat) (hfresh : lookupStmt query cache = none)
    (hok : prep.PrepareContext ctx1 query = .ok stmt) :
    (stmtCacher.PrepareContext prep ctx1 now1 query cache).res = .ok stmt ∧
    (stmtCacher.PrepareContext prep ctx1 now1 query cache).prepCalls
      = [(ctx1, query)] ∧
    (stmtCacher.PrepareContext prep ctx2 now2 query
        (stmtCacher.PrepareContext prep ctx1 now1 query cache).cache).res
      = .ok stmt ∧
    (stmtCacher.PrepareContext prep ctx2 now2 query
        (stmtCacher.PrepareContext prep ctx1 now1 query cache).cache).prepCalls
      = [] := by
  rw [stmtCacher.prepareContext_miss_ok prep ctx1 now1 query cache stmt hfresh hok]
  have h2 : lookupStmt query ((query, ⟨stmt, now1⟩) :: cache)
      = some ⟨stmt, now1⟩ := by simp [lookupStmt]
  rw [stmtCacher.prepareContext_hit prep ctx2 now2 query _ _ h2]
  exact ⟨rfl, rfl, rfl, rfl⟩

/-- C9 (witness): concrete run of the serialized-concurrent-prepare
theorem with two distinct caller contexts. -/
theorem concurrent_prepare_one_underlying_call_witness :
    (stmtCacher.PrepareContext ⟨fun _ _ => .ok 11⟩ (.other 1) 3 "SELECT 2"
        []).res = .ok 11 ∧
    (stmtCacher.PrepareContext ⟨fun _ _ => .ok 11⟩ (.other 1) 3 "SELECT 2"
        []).prepCalls = [(.other 1, "SELECT 2")] ∧
    (stmtCacher.PrepareContext ⟨fun _ _ => .ok 11⟩ (.other 2) 4 "SELECT 2"
        (stmtCacher.PrepareContext ⟨fun _ _ => .ok 11⟩ (.other 1) 3 "SELECT 2"
          []).cache).res = .ok 11 ∧
    (stmtCacher.PrepareContext ⟨fun _ _ => .ok 11⟩ (.other 2) 4 "SELECT 2"
        (stmtCacher.PrepareContext ⟨fun _ _ => .ok 11⟩ (.other 1) 3 "SELECT 2"
          []).cache).prepCalls = [] :=
  concurrent_prepare_one_underlying_call ⟨fun _ _ => .ok 11⟩ (.other 1)
    (.other 2) 3 4 "SELECT 2" [] 11 rfl rfl

/-- C5: one janitor tick keeps, untouched and in order, exactly the entries
whose idle time (now minus last use) is within the max age, and the list of
closed statements is exactly one close per evicted entry: the image of the
stale entries under their statement handle. -/
theorem cleanupTick_evicts_exactly_stale (now maxAge : Nat)
    (cache : StmtCache) :
    (stmtCacher.cleanupTick now maxAge cache).1
      = cache.filter (fun kv => now - kv.2.lastUse ≤ maxAge) ∧
    (stmtCacher.cleanupTick now maxAge cache).2
      = (cache.filter (fun kv => maxAge < now - kv.2.lastUse)).map
          (fun kv => kv.2.stmt) := by
  induction cache with
  | nil => exact ⟨rfl, rfl⟩
  | cons kv rest ih =>
    obtain ⟨k, v⟩ := kv
    obtain ⟨ih1, ih2⟩ := ih
    by_cases h : maxAge < now - v.lastUse
    · refine ⟨?_, ?_⟩
      · simp only [stmtCacher.cleanupTick, if_pos h]
        rw [List.filter_cons_of_neg (by simpa using Nat.not_le.mpr h), ih1]
      · simp only [stmtCacher.cleanupTick, if_pos h]
        rw [List.filter_cons_of_pos (by simpa using h), List.map_cons, ih2]
    · refine ⟨?_, ?_⟩
      · simp only [stmtCacher.cleanupTick, if_neg h]
        rw [List.filter_cons_of_pos (by simpa using Nat.not_lt.mp h), ih1]
      · simp only [stmtCacher.cleanupTick, if_neg h]
        rw [List.filter_cons_of_neg (by simpa using h), ih2]

/-- C3: evaluation at the failing input.  With a `QueryRower`-capable base
handle, `otherRunner.QueryRow` (and likewise `QueryRowContext`) hands the
delegate a single-element argument list holding the whole original slice —
the Go source passes `args` to a variadic parameter without the `...`
spread — instead of the original argument list element for element. -/
theorem otherRunner_queryRow_wraps_args :
    otherRunner.QueryRow
        ⟨fun _ _ => .ok 0, fun _ _ _ => .ok 0, none, none,
          some fun q as => .driverRow none q as, none⟩
        "SELECT ?" [.scalar 1, .scalar 2]
      = .driverRow none "SELECT ?" [.slice [.scalar 1, .scalar 2]] ∧
    otherRunner.QueryRowContext
        ⟨fun _ _ => .ok 0, fun _ _ _ => .ok 0, none, none, none,
          some fun c q as => .driverRow (some c) q as⟩
        .background "SELECT ?" [.scalar 1, .scalar 2]
      = .driverRow (some .background) "SELECT ?"
          [.slice [.scalar 1, .scalar 2]] ∧
    [Value.slice [.scalar 1, .scalar 2]] ≠ [Value.scalar 1, Value.scalar 2] := by
  refine ⟨rfl, rfl, fun h => ?_⟩
  simp at h

/-- C7: single-row operations always return a scannable row object, never
the nil interface value: `QueryRowWith` and `QueryRowWithContext` always
return a `Row` wrapper, whose scan surfaces a render error exactly; the
cache's `QueryRowContext` and `QueryRow` wrap a prepare failure into a
returned `Row` whose scan surfaces it; and the cache returns a non-nil
scanner whenever the underlying driver's rows are non-nil. -/
theorem queryRow_always_scannable (dbR : QueryRower) (dbRC : QueryRowerContext)
    (ctx : Ctx) (s : Sqlizer) (e : Err) (prep : Preparer) (env : StmtEnv)
    (now : Nat) (query : String) (args : List Value) (cache : StmtCache) :
    (QueryRowWith dbR s).1 ≠ .nilScanner ∧
    (s.ToSql.2.2 = some e → (QueryRowWith dbR s).1.scan = .ok (some e)) ∧
    (QueryRowWithContext ctx dbRC s).1 ≠ .nilScanner ∧
    (s.ToSql.2.2 = some e →
      (QueryRowWithContext ctx dbRC s).1.scan = .ok (some e)) ∧
    (lookupStmt query cache = none → prep.PrepareContext ctx query = .error e →
      (stmtCacher.QueryRowContext prep env ctx now query args cache).row
          = .row .nilScanner (some e) ∧
      (stmtCacher.QueryRowContext prep env ctx now query args cache).row.scan
          = .ok (some e)) ∧
    (lookupStmt query cache = none →
      prep.PrepareContext .background query = .error e →
      (stmtCacher.QueryRow prep env now query args cache).row
          = .row .nilScanner (some e)) ∧
    ((∀ c st as, env.QueryRowContext c st as ≠ .nilScanner) →
      (stmtCacher.QueryRowContext prep env ctx now query args cache).row
        ≠ .nilScanner) := by
  refine ⟨fun h => RowScannerV.noConfusion h, fun h => ?_,
    fun h => RowScannerV.noConfusion h, fun h => ?_, fun hf he => ?_,
    fun hf he => ?_, fun hnn => ?_⟩
  · show (RowScannerV.row (dbR.QueryRow s.ToSql.1 s.ToSql.2.1)
        s.ToSql.2.2).scan = .ok (some e)
    rw [h]; rfl
  · show (RowScannerV.row (dbRC.QueryRowContext ctx s.ToSql.1 s.ToSql.2.1)
        s.ToSql.2.2).scan = .ok (some e)
    rw [h]; rfl
  · have hm := stmtCacher.prepareContext_miss_err prep ctx now query cache e hf he
    unfold stmtCacher.QueryRowContext
    rw [hm]
    exact ⟨rfl, rfl⟩
  · have hm := stmtCacher.prepareContext_miss_err prep .background now query
      cache e hf he
    unfold stmtCacher.QueryRow stmtCacher.QueryRowContext
    rw [hm]
  · unfold stmtCacher.QueryRowContext
    cases hp : stmtCacher.PrepareContext prep ctx now query cache with
    | mk res c calls =>
      cases res with
      | error e1 => exact fun hcon => RowScannerV.noConfusion hcon
      | ok st => exact hnn ctx st args

/-- C7 (witness): concrete runs of the scannable-row theorem: a failing
Sqlizer against row-returning handles, and a failing preparer in front of a
non-nil driver. -/
theorem queryRow_always_scannable_witness :
    (QueryRowWith ⟨fun q as => .driverRow none q as⟩
        ⟨("Q", [], some (.renderErr 5))⟩).1.scan = .ok (some (.renderErr 5)) ∧
    (QueryRowWithContext .background ⟨fun c q as => .driverRow (some c) q as⟩
        ⟨("Q", [], some (.renderErr 5))⟩).1.scan = .ok (some (.renderErr 5)) ∧
    (stmtCacher.QueryRowContext ⟨fun _ _ => .error (.renderErr 5)⟩
        ⟨fun _ _ _ => .ok 0, fun _ _ _ => .ok 0,
          fun c _ as => .driverRow (some c) "r" as⟩
        .background 0 "Q" [] []).row = .row .nilScanner (some (.renderErr 5)) ∧
    (stmtCacher.QueryRow ⟨fun _ _ => .error (.renderErr 5)⟩
        ⟨fun _ _ _ => .ok 0, fun _ _ _ => .ok 0,
          fun c _ as => .driverRow (some c) "r" as⟩
        0 "Q" [] []).row = .row .nilScanner (some (.renderErr 5)) ∧
    (stmtCacher.QueryRowContext ⟨fun _ _ => .error (.renderErr 5)⟩
        ⟨fun _ _ _ => .ok 0, fun _ _ _ => .ok 0,
          fun c _ as => .driverRow (some c) "r" as⟩
        .background 0 "Q" [] []).row ≠ .nilScanner := by
  have h := queryRow_always_scannable ⟨fun q as => .driverRow none q as⟩
    ⟨fun c q as => .driverRow (some c) q as⟩ .background
    ⟨("Q", [], some (.renderErr 5))⟩ (.renderErr 5)
    ⟨fun _ _ => .error (.renderErr 5)⟩
    ⟨fun _ _ _ => .ok 0, fun _ _ _ => .ok 0,
      fun c _ as => .driverRow (some c) "r" as⟩
    0 "Q" [] []
  exact ⟨h.2.1 rfl, h.2.2.2.1 rfl, (h.2.2.2.2.1 rfl rfl).1,
    h.2.2.2.2.2.1 rfl rfl,
    h.2.2.2.2.2.2 (fun c st as hc => RowScannerV.noConfusion hc)⟩

/-- C8: a handle that satisfies the full `Runner` contract is returned
as-is with no wrapping; the built-in pool and transaction handles never
satisfy it and receive their dedicated wrappers; every other handle
receives the guarded adapter — so the source's type switch is pointwise
equal to the spec's stated priority order. -/
theorem wrapRunner_priority_order :
    (∀ h : BaseHandle, h.isRunner = true → wrapRunner (.custom h) = .asIs h) ∧
    (∀ id : Nat, (BaseRunnerVal.sqlDB id).isRunner = false ∧
      wrapRunner (.sqlDB id) = .dbRunner id) ∧
    (∀ id : Nat, (BaseRunnerVal.sqlTx id).isRunner = false ∧
      wrapRunner (.sqlTx id) = .txRunner id) ∧
    (∀ h : BaseHandle, h.isRunner = false →
      wrapRunner (.custom h) = .guarded h) ∧
    (∀ b : BaseRunnerVal, wrapRunner b = wrapRunnerSpec b) := by
  refine ⟨fun h hr => by simp [wrapRunner, hr],
    fun id => ⟨rfl, rfl⟩, fun id => ⟨rfl, rfl⟩,
    fun h hr => by simp [wrapRunner, hr], fun b => ?_⟩
  cases b with
  | sqlDB id => rfl
  | sqlTx id => rfl
  | custom h =>
    by_cases hr : h.isRunner <;>
      simp [wrapRunner, wrapRunnerSpec, BaseRunnerVal.isRunner, hr]

/-- C8 (witness): a full-capability custom handle is returned as-is, and an
execute-only handle receives the guarded adapter. -/
theorem wrapRunner_priority_order_witness :
    wrapRunner (.custom ⟨fun _ _ => .ok 0, fun _ _ _ => .ok 0,
        some fun _ _ => .ok 0, some fun _ _ _ => .ok 0,
        some fun q as => .driverRow none q as,
        some fun c q as => .driverRow (some c) q as⟩)
      = .asIs ⟨fun _ _ => .ok 0, fun _ _ _ => .ok 0,
          some fun _ _ => .ok 0, some fun _ _ _ => .ok 0,
          some fun q as => .driverRow none q as,
          some fun c q as => .driverRow (some c) q as⟩ ∧
    wrapRunner (.custom ⟨fun _ _ => .ok 0, fun _ _ _ => .ok 0,
        none, none, none, none⟩)
      = .guarded ⟨fun _ _ => .ok 0, fun _ _ _ => .ok 0,
          none, none, none, none⟩ :=
  ⟨wrapRunner_priority_order.1 _ rfl, wrapRunner_priority_order.2.2.2.1 _ rfl⟩

end Sqrl
